import Mathlib

/-!
# Verification of the deployment reconciliation controller

Shallow embedding of `pkg/controller/deployment/deployment_controller.go`.

External collaborators (the shared-informer caches, the authoritative store
client, the controller-ref manager's `ClaimReplicaSets`, and the strategy
executors `syncStatusOnly` / `sync` / `rollback` / `rolloutRecreate` /
`rolloutRolling` / `checkPausedConditions` / `isScalingEvent`, none of which
are defined in this file of the repository) are modelled as an explicit
environment of oracle functions; the control flow of the controller file
itself is embedded function by function.
-/

namespace DeploymentController

/-- Errors as the controller observes them.  The Go code distinguishes errors
only through the predicates `errors.IsNotFound` and
`errors.HasStatusCause(err, v1.NamespaceTerminatingCause)`; the constructors
mirror those two distinguished classes plus the locally constructed errors. -/
inductive Err where
  /-- A status error with reason NotFound. -/
  | notFound (msg : String)
  /-- An error carrying the NamespaceTerminating status cause. -/
  | namespaceTerminating (msg : String)
  /-- Any other store / transport error. -/
  | store (msg : String)
  /-- `SplitMetaNamespaceKey` failure: unexpected key format. -/
  | invalidKey (msg : String)
  /-- `LabelSelectorAsSelector` failure or the locally built
  "invalid label selector" error of `getReplicaSetsForDeployment`. -/
  | invalidSelector (msg : String)
  /-- The `fmt.Errorf("unexpected deployment strategy type: %s", ...)` error. -/
  | unexpectedStrategy (msg : String)
  deriving DecidableEq, Repr

/-- `errors.IsNotFound`. -/
def Err.isNotFound : Err → Bool
  | .notFound _ => true
  | _ => false

/-- `errors.HasStatusCause(err, v1.NamespaceTerminatingCause)`. -/
def Err.hasNamespaceTerminatingCause : Err → Bool
  | .namespaceTerminating _ => true
  | _ => false

/-- `metav1.OwnerReference`, restricted to the fields the controller reads:
kind, name, UID and the controller flag (`GetControllerOf` keeps only
references whose controller flag is set). -/
structure OwnerReference where
  kind : String
  name : String
  uid : String
  controller : Bool
  deriving DecidableEq, Repr

/-- `metav1.GetControllerOf`: the first owner reference whose controller flag
is true, if any. -/
def getControllerOf (refs : List OwnerReference) : Option OwnerReference :=
  refs.find? (·.controller)

/-- One `metav1.LabelSelectorRequirement`: key, operator and values. -/
structure LabelSelectorRequirement where
  key : String
  op : String
  values : List String
  deriving DecidableEq, Repr

/-- `metav1.LabelSelector` with its two fields. -/
structure LabelSelector where
  matchLabels : List (String × String)
  matchExpressions : List LabelSelectorRequirement
  deriving DecidableEq, Repr

/-- The `everything := metav1.LabelSelector{}` value the sync compares
against with `reflect.DeepEqual`. -/
def emptyLabelSelector : LabelSelector := { matchLabels := [], matchExpressions := [] }

/-- A pod (`v1.Pod`), restricted to the fields the controller reads. -/
structure Pod where
  ns : String
  name : String
  uid : String
  labels : List (String × String)
  ownerReferences : List OwnerReference
  deriving DecidableEq, Repr

/-- A replica set (`apps.ReplicaSet`), restricted to the fields the
controller reads. -/
structure ReplicaSet where
  ns : String
  name : String
  uid : String
  labels : List (String × String)
  resourceVersion : String
  deletionTimestamp : Option Nat
  ownerReferences : List OwnerReference
  deriving DecidableEq, Repr

/-- `apps.DeploymentSpec`, restricted to the fields this file reads.
`rollbackTo` models the pending-rollback marker read by `getRollbackTo`
(defined in `rollback.go`, outside this file). -/
structure DeploymentSpec where
  selector : Option LabelSelector
  strategyType : String
  paused : Bool
  rollbackTo : Option Int
  deriving DecidableEq, Repr

/-- `apps.DeploymentStatus`, restricted to the observed generation. -/
structure DeploymentStatus where
  observedGeneration : Int
  deriving DecidableEq, Repr

/-- A deployment (`apps.Deployment`), restricted to the fields this file
reads and writes. -/
structure Deployment where
  ns : String
  name : String
  uid : String
  generation : Int
  deletionTimestamp : Option Nat
  spec : DeploymentSpec
  status : DeploymentStatus
  deriving DecidableEq, Repr

/-- `controllerKind.Kind` for `apps.SchemeGroupVersion.WithKind("Deployment")`. -/
def deploymentKind : String := "Deployment"

/-- `apps.SchemeGroupVersion.WithKind("ReplicaSet").Kind`. -/
def replicaSetKind : String := "ReplicaSet"

/-- `maxRetries`: the number of times a deployment is retried before being
dropped out of the queue. -/
def maxRetries : Nat := 15

/-- Modelled from the spec: `getRollbackTo` lives in `rollback.go`, outside
this file; the spec describes it as reading the pending-rollback marker ("a
target revision is requested and not yet cleared").  We model the marker as
the optional `rollbackTo` field of the deployment spec. -/
def getRollbackTo (d : Deployment) : Option Int := d.spec.rollbackTo

deriving instance DecidableEq for Except

/-- `strings.Split(key, "/")` on the character list: split at every slash,
never returning an empty list of segments. -/
def splitSlash : List Char → List (List Char)
  | [] => [[]]
  | c :: rest =>
      let r := splitSlash rest
      if c = '/' then [] :: r
      else
        match r with
        | [] => [[c]]
        | h :: t => (c :: h) :: t

/-- `cache.SplitMetaNamespaceKey` (client-go library): one path segment means
cluster-scoped (empty namespace), two segments split into namespace and
name, anything else is an "unexpected key format" error. -/
def splitMetaNamespaceKey (key : String) : Except Err (String × String) :=
  match splitSlash key.toList with
  | [name] => .ok ("", String.mk name)
  | [ns, name] => .ok (String.mk ns, String.mk name)
  | _ => .error (.invalidKey key)

/-- Validity of one selector requirement, as checked by the apimachinery
library when converting: `In`/`NotIn` need at least one value,
`Exists`/`DoesNotExist` need none, and any other operator is invalid. -/
def requirementValid (r : LabelSelectorRequirement) : Bool :=
  if r.op = "In" || r.op = "NotIn" then !r.values.isEmpty
  else if r.op = "Exists" || r.op = "DoesNotExist" then r.values.isEmpty
  else false

/-- `metav1.LabelSelectorAsSelector` (apimachinery library), reduced to its
success/failure behaviour: a nil selector converts (to a match-nothing
selector), and a non-nil selector converts exactly when every requirement is
valid.  The resulting selector value itself is not modelled because every
list that consumes it goes through an environment oracle. -/
def labelSelectorAsSelector (sel : Option LabelSelector) : Except Err Unit :=
  match sel with
  | none => .ok ()
  | some s =>
      if s.matchExpressions.all requirementValid then .ok ()
      else .error (.invalidSelector "invalid selector requirement")

/-- The Go map `map[types.UID][]*v1.Pod` built by `getPodMapForDeployment`,
as an association list without duplicate keys. -/
abbrev PodMap := List (String × List Pod)

/-- Map lookup: the value stored under key `k`, if present. -/
def pmFind (m : PodMap) (k : String) : Option (List Pod) :=
  (m.find? (·.1 = k)).map (·.2)

/-- Map write `m[k] = v`: replace the entry when the key is present,
append a fresh entry otherwise. -/
def pmSet : PodMap → String → List Pod → PodMap
  | [], k, v => [(k, v)]
  | p :: rest, k, v =>
      if p.1 = k then (k, v) :: rest else p :: pmSet rest k v

/-- Total number of pods stored in the map (the `numPods` accumulation of
`deletePod`). -/
def numPods (m : PodMap) : Nat :=
  (m.map (fun p => p.2.length)).sum

/-- The environment of external collaborators: informer-cache listers and
getters, the authoritative store client, and the helper routines defined
outside `deployment_controller.go`.  Each field is the oracle for one call
site. -/
structure Env where
  /-- `dLister.Deployments(ns).Get(name)`. -/
  dGet : String → String → Except Err Deployment
  /-- `rsLister.ReplicaSets(ns).Get(name)`. -/
  rsGet : String → String → Except Err ReplicaSet
  /-- `rsLister.ReplicaSets(ns).List(labels.Everything())`. -/
  rsListAll : String → Except Err (List ReplicaSet)
  /-- `podLister.Pods(ns).List(selector)`: the cached pod list for the
  deployment's namespace, already filtered by its selector. -/
  podList : String → Except Err (List Pod)
  /-- `util.ListReplicaSets(d, util.RsListFromClient(...))` used by
  `deletePod`. -/
  listRSFromClient : Deployment → Except Err (List ReplicaSet)
  /-- `util.GetDeploymentsForReplicaSet(dLister, rs)`. -/
  getDeploymentsForRS : ReplicaSet → Except Err (List Deployment)
  /-- `cm.ClaimReplicaSets(rsList)` of the controller-ref manager built in
  `getReplicaSetsForDeployment`. -/
  claimReplicaSets : Deployment → List ReplicaSet → Except Err (List ReplicaSet)
  /-- `client.AppsV1().Deployments(ns).UpdateStatus(...)`. -/
  updateStatus : Deployment → Except Err Deployment
  /-- `dc.syncStatusOnly(d, rsList)`. -/
  syncStatusOnly : Deployment → List ReplicaSet → Option Err
  /-- `dc.checkPausedConditions(d)`. -/
  checkPausedConditions : Deployment → Option Err
  /-- `dc.sync(d, rsList)` (scale convergence). -/
  syncScale : Deployment → List ReplicaSet → Option Err
  /-- `dc.rollback(d, rsList)`. -/
  rollback : Deployment → List ReplicaSet → Option Err
  /-- `dc.isScalingEvent(d, rsList)`. -/
  isScalingEvent : Deployment → List ReplicaSet → Except Err Bool
  /-- `dc.rolloutRecreate(d, rsList, podMap)`. -/
  rolloutRecreate : Deployment → List ReplicaSet → PodMap → Option Err
  /-- `dc.rolloutRolling(d, rsList)`. -/
  rolloutRolling : Deployment → List ReplicaSet → Option Err

/-- Lift an optional error (the result of a sub-sync) into `Except`. -/
def toExcept : Option Err → Except Err Unit
  | none => .ok ()
  | some e => .error e

/-- `resolveControllerRef`: resolve an owner reference to a deployment, or
`none` when the kind is wrong, the cache lookup fails, or the UID found does
not match the reference. -/
def resolveControllerRef (env : Env) (ns : String) (controllerRef : OwnerReference) :
    Option Deployment :=
  if controllerRef.kind ≠ deploymentKind then none
  else
    match env.dGet ns controllerRef.name with
    | .error _ => none
    | .ok d => if d.uid ≠ controllerRef.uid then none else some d

/-- `getDeploymentForPod`: walk pod → owning replica set → owning
deployment, verifying kind and UID at each hop. -/
def getDeploymentForPod (env : Env) (pod : Pod) : Option Deployment :=
  match getControllerOf pod.ownerReferences with
  | none => none
  | some controllerRef =>
      if controllerRef.kind ≠ replicaSetKind then none
      else
        match env.rsGet pod.ns controllerRef.name with
        | .error _ => none
        | .ok rs =>
            if rs.uid ≠ controllerRef.uid then none
            else
              match getControllerOf rs.ownerReferences with
              | none => none
              | some ref2 => resolveControllerRef env rs.ns ref2

/-- `getDeploymentsForReplicaSet`: deployments that potentially match a
replica set; an error or empty result becomes `[]` (`nil`). -/
def getDeploymentsForReplicaSet (env : Env) (rs : ReplicaSet) : List Deployment :=
  match env.getDeploymentsForRS rs with
  | .error _ => []
  | .ok ds => ds

/-- Observable actions of the event classifier's handlers. -/
inductive CAction where
  /-- A call to `resolveControllerRef`. -/
  | resolveRef (ns : String) (ref : OwnerReference)
  /-- A call to `getDeploymentsForReplicaSet` (orphan matching). -/
  | orphanMatch (ns name : String)
  /-- `enqueueDeployment` of the deployment with this namespace and name. -/
  | enqueue (ns name : String)
  deriving DecidableEq, Repr

/-- The namespace/name pairs enqueued by a classifier action trace. -/
def enqueues : List CAction → List (String × String)
  | [] => []
  | .enqueue ns name :: rest => (ns, name) :: enqueues rest
  | _ :: rest => enqueues rest

/-- `updateReplicaSet`: the replica-set update handler. -/
def updateReplicaSet (env : Env) (old cur : ReplicaSet) : List CAction :=
  if cur.resourceVersion = old.resourceVersion then []
  else
    let curControllerRef := getControllerOf cur.ownerReferences
    let oldControllerRef := getControllerOf old.ownerReferences
    let controllerRefChanged := curControllerRef ≠ oldControllerRef
    let oldActs : List CAction :=
      if controllerRefChanged then
        match oldControllerRef with
        | some r =>
            CAction.resolveRef old.ns r ::
              (match resolveControllerRef env old.ns r with
               | some d => [CAction.enqueue d.ns d.name]
               | none => [])
        | none => []
      else []
    match curControllerRef with
    | some r =>
        oldActs ++ CAction.resolveRef cur.ns r ::
          (match resolveControllerRef env cur.ns r with
           | some d => [CAction.enqueue d.ns d.name]
           | none => [])
    | none =>
        let labelChanged := cur.labels ≠ old.labels
        if labelChanged ∨ controllerRefChanged then
          oldActs ++ CAction.orphanMatch cur.ns cur.name ::
            (getDeploymentsForReplicaSet env cur).map (fun d => CAction.enqueue d.ns d.name)
        else oldActs

/-- `deleteReplicaSet` (after tombstone unwrapping): resolve the owner
reference and enqueue the owner; orphan deletions are ignored. -/
def deleteReplicaSet (env : Env) (rs : ReplicaSet) : List CAction :=
  match getControllerOf rs.ownerReferences with
  | none => []
  | some controllerRef =>
      CAction.resolveRef rs.ns controllerRef ::
        (match resolveControllerRef env rs.ns controllerRef with
         | none => []
         | some d => [CAction.enqueue d.ns d.name])

/-- The first loop of `getPodMapForDeployment`: `podMap[rs.UID] = []` for
each replica set of the claimed list. -/
def initPodMap (rsList : List ReplicaSet) : PodMap :=
  rsList.foldl (fun m rs => pmSet m rs.uid []) []

/-- One iteration of the second loop of `getPodMapForDeployment`: append the
pod to the entry of its controller's UID when that UID is a key of the map,
and skip it otherwise (no controller reference, or a UID outside the claimed
set). -/
def groupStep (m : PodMap) (pod : Pod) : PodMap :=
  match getControllerOf pod.ownerReferences with
  | none => m
  | some controllerRef =>
      match pmFind m controllerRef.uid with
      | none => m
      | some l => pmSet m controllerRef.uid (l ++ [pod])

/-- The second loop of `getPodMapForDeployment`. -/
def groupPods (pods : List Pod) (init : PodMap) : PodMap :=
  pods.foldl groupStep init

/-- Every pod stored under a key of the map carries a controller reference
whose UID is that key.  This is the grouping invariant maintained by
`groupStep`. -/
def OwnedByKey (m : PodMap) : Prop :=
  ∀ u l pod, pmFind m u = some l → pod ∈ l →
    ∃ ref, getControllerOf pod.ownerReferences = some ref ∧ ref.uid = u

/-- `getPodMapForDeployment`: group the cached pods of the deployment's
namespace (filtered by its selector) by the UID of their controller, keeping
only UIDs of replica sets in `rsList`. -/
def getPodMapForDeployment (env : Env) (d : Deployment) (rsList : List ReplicaSet) :
    Except Err PodMap :=
  match labelSelectorAsSelector d.spec.selector with
  | .error e => .error e
  | .ok _ =>
      match env.podList d.ns with
      | .error e => .error e
      | .ok pods => .ok (groupPods pods (initPodMap rsList))

/-- `deletePod` (after tombstone unwrapping): enqueue the owning Recreate
deployment once the recomputed pod map holds zero pods; every failure to
resolve, list or group leads to no enqueue. -/
def deletePod (env : Env) (pod : Pod) : List CAction :=
  match getDeploymentForPod env pod with
  | none => []
  | some d =>
      if d.spec.strategyType = "Recreate" then
        match env.listRSFromClient d with
        | .error _ => []
        | .ok rsList =>
            match getPodMapForDeployment env d rsList with
            | .error _ => []
            | .ok podMap =>
                if numPods podMap = 0 then [CAction.enqueue d.ns d.name] else []
      else []

/-- `getReplicaSetsForDeployment`: list all replica sets in the namespace,
convert the deployment's selector (an invalid selector becomes a locally
built error), then claim through the controller-ref manager. -/
def getReplicaSetsForDeployment (env : Env) (d : Deployment) :
    Except Err (List ReplicaSet) :=
  match env.rsListAll d.ns with
  | .error e => .error e
  | .ok rsList =>
      match labelSelectorAsSelector d.spec.selector with
      | .error _ =>
          .error (.invalidSelector (d.ns ++ "/" ++ d.name ++ " has invalid label selector"))
      | .ok _ => env.claimReplicaSets d rsList

/-- Observable actions of one sync invocation. -/
inductive Action where
  /-- `eventRecorder.Eventf(d, v1.EventTypeWarning, reason, ...)`. -/
  | warnEvent (reason : String)
  /-- `UpdateStatus` write carrying the new observed generation. -/
  | updateStatus (ns name : String) (observedGeneration : Int)
  /-- The `getReplicaSetsForDeployment` step: replica sets listed and
  claimed (possibly with adoption/orphaning writes). -/
  | listClaimReplicaSets (ns name : String)
  /-- The `getPodMapForDeployment` step: pods listed. -/
  | listPods (ns : String)
  /-- Dispatch into the named sub-sync routine. -/
  | subSync (tag : String)
  deriving DecidableEq, Repr

/-- The body of `syncDeployment` after the deployment has been fetched and
deep-copied, returning the sync outcome together with the action trace. -/
def syncWithDeployment (env : Env) (d : Deployment) :
    Except Err Unit × List Action :=
  if d.spec.selector = some emptyLabelSelector then
    if d.status.observedGeneration < d.generation then
      let d' : Deployment :=
        { d with status := { d.status with observedGeneration := d.generation } }
      let _ := env.updateStatus d'
      (.ok (), [Action.warnEvent "SelectingAll",
                Action.updateStatus d'.ns d'.name d'.status.observedGeneration])
    else
      (.ok (), [Action.warnEvent "SelectingAll"])
  else
    let acts := [Action.listClaimReplicaSets d.ns d.name]
    match getReplicaSetsForDeployment env d with
    | .error e => (.error e, acts)
    | .ok rsList =>
        let acts := acts ++ [Action.listPods d.ns]
        match getPodMapForDeployment env d rsList with
        | .error e => (.error e, acts)
        | .ok podMap =>
            if d.deletionTimestamp.isSome then
              (toExcept (env.syncStatusOnly d rsList),
               acts ++ [Action.subSync "syncStatusOnly"])
            else
              match env.checkPausedConditions d with
              | some e => (.error e, acts)
              | none =>
                  if d.spec.paused then
                    (toExcept (env.syncScale d rsList), acts ++ [Action.subSync "sync"])
                  else if (getRollbackTo d).isSome then
                    (toExcept (env.rollback d rsList), acts ++ [Action.subSync "rollback"])
                  else
                    match env.isScalingEvent d rsList with
                    | .error e => (.error e, acts)
                    | .ok true =>
                        (toExcept (env.syncScale d rsList),
                         acts ++ [Action.subSync "sync"])
                    | .ok false =>
                        if d.spec.strategyType = "Recreate" then
                          (toExcept (env.rolloutRecreate d rsList podMap),
                           acts ++ [Action.subSync "rolloutRecreate"])
                        else if d.spec.strategyType = "RollingUpdate" then
                          (toExcept (env.rolloutRolling d rsList),
                           acts ++ [Action.subSync "rolloutRolling"])
                        else
                          (.error (.unexpectedStrategy d.spec.strategyType), acts)

/-- `syncDeployment`: split the key, fetch the deployment from the cache
(NotFound is terminal success), deep-copy, and run the sync body. -/
def syncDeployment (env : Env) (key : String) : Except Err Unit × List Action :=
  match splitMetaNamespaceKey key with
  | .error e => (.error e, [])
  | .ok (ns, name) =>
      match env.dGet ns name with
      | .error e =>
          if e.isNotFound then (.ok (), []) else (.error e, [])
      | .ok deployment => syncWithDeployment env deployment

/-- The per-key attempt counters of the rate-limiting work queue
(`NumRequeues`). -/
structure RetryQueue where
  requeues : String → Nat

/-- `queue.Forget(key)`: reset the key's attempt counter. -/
def RetryQueue.forget (q : RetryQueue) (key : String) : RetryQueue :=
  ⟨fun k => if k = key then 0 else q.requeues k⟩

/-- `queue.AddRateLimited(key)`: requeue with backoff, bumping the key's
attempt counter. -/
def RetryQueue.addRateLimited (q : RetryQueue) (key : String) : RetryQueue :=
  ⟨fun k => if k = key then q.requeues k + 1 else q.requeues k⟩

/-- Which queue operation `handleErr` performed. -/
inductive QueueOp where
  | forget
  | addRateLimited
  deriving DecidableEq, Repr

/-- Result of `handleErr`: the updated queue, the operation taken, and
whether the error was surfaced to `utilruntime.HandleError`. -/
structure HandleErrResult where
  queue : RetryQueue
  op : QueueOp
  surfaced : Bool

/-- `handleErr`: forget on success or a namespace-terminating error;
otherwise requeue rate-limited while the attempt counter is below
`maxRetries`, and past that surface the error and forget the key. -/
def handleErr (q : RetryQueue) (res : Option Err) (key : String) : HandleErrResult :=
  match res with
  | none => ⟨q.forget key, .forget, false⟩
  | some e =>
      if e.hasNamespaceTerminatingCause then ⟨q.forget key, .forget, false⟩
      else if q.requeues key < maxRetries then ⟨q.addRateLimited key, .addRateLimited, false⟩
      else ⟨q.forget key, .forget, true⟩

/-- Error propagation through `syncDeployment` past the selector check: at
every later step of the sync, an error coming back from a store read/write
or from a dispatched sub-sync is returned unmodified as the sync's result. -/
def PropagatesErrors (env : Env) (key : String) (d : Deployment) : Prop :=
  (∀ e, getReplicaSetsForDeployment env d = .error e →
    (syncDeployment env key).1 = .error e) ∧
  (∀ rsList, getReplicaSetsForDeployment env d = .ok rsList →
    (∀ e, getPodMapForDeployment env d rsList = .error e →
      (syncDeployment env key).1 = .error e) ∧
    (∀ podMap, getPodMapForDeployment env d rsList = .ok podMap →
      (d.deletionTimestamp.isSome = true →
        ∀ e, env.syncStatusOnly d rsList = some e →
          (syncDeployment env key).1 = .error e) ∧
      (d.deletionTimestamp = none →
        (∀ e, env.checkPausedConditions d = some e →
          (syncDeployment env key).1 = .error e) ∧
        (env.checkPausedConditions d = none →
          (d.spec.paused = true →
            ∀ e, env.syncScale d rsList = some e →
              (syncDeployment env key).1 = .error e) ∧
          (d.spec.paused = false →
            ((getRollbackTo d).isSome = true →
              ∀ e, env.rollback d rsList = some e →
                (syncDeployment env key).1 = .error e) ∧
            (getRollbackTo d = none →
              (∀ e, env.isScalingEvent d rsList = .error e →
                (syncDeployment env key).1 = .error e) ∧
              (env.isScalingEvent d rsList = .ok true →
                ∀ e, env.syncScale d rsList = some e →
                  (syncDeployment env key).1 = .error e) ∧
              (env.isScalingEvent d rsList = .ok false →
                (d.spec.strategyType = "Recreate" →
                  ∀ e, env.rolloutRecreate d rsList podMap = some e →
                    (syncDeployment env key).1 = .error e) ∧
                (d.spec.strategyType = "RollingUpdate" →
                  ∀ e, env.rolloutRolling d rsList = some e →
                    (syncDeployment env key).1 = .error e))))))))

/-! ## Concrete instances used to evaluate the definitions -/

/-- A baseline environment in which every cache is empty and every external
call succeeds trivially. -/
def envBase : Env :=
  { dGet := fun _ _ => .error (.notFound "deployment not found")
    rsGet := fun _ _ => .error (.notFound "replica set not found")
    rsListAll := fun _ => .ok []
    podList := fun _ => .ok []
    listRSFromClient := fun _ => .ok []
    getDeploymentsForRS := fun _ => .ok []
    claimReplicaSets := fun _ rsList => .ok rsList
    updateStatus := fun d => .ok d
    syncStatusOnly := fun _ _ => none
    checkPausedConditions := fun _ => none
    syncScale := fun _ _ => none
    rollback := fun _ _ => none
    isScalingEvent := fun _ _ => .ok false
    rolloutRecreate := fun _ _ _ => none
    rolloutRolling := fun _ _ => none }

/-- A one-label selector `{app: x}`. -/
def selApp : LabelSelector := { matchLabels := [("app", "x")], matchExpressions := [] }

/-- A deployment whose selector is the empty (select-everything) selector,
at generation 3 with stale observed generation 2. -/
def dEmptySel : Deployment :=
  { ns := "n", name := "d", uid := "du", generation := 3, deletionTimestamp := none,
    spec := { selector := some emptyLabelSelector, strategyType := "RollingUpdate",
              paused := false, rollbackTo := none },
    status := { observedGeneration := 2 } }

/-- An ordinary rolling-update deployment with selector `{app: x}`. -/
def dPlain : Deployment :=
  { ns := "n", name := "d", uid := "du", generation := 1, deletionTimestamp := none,
    spec := { selector := some selApp, strategyType := "RollingUpdate",
              paused := false, rollbackTo := none },
    status := { observedGeneration := 1 } }

/-- `dPlain` with the Recreate strategy. -/
def dRecreate : Deployment :=
  { dPlain with spec := { dPlain.spec with strategyType := "Recreate" } }

/-- Environment whose deployment cache serves `dEmptySel`. -/
def envEmptySel : Env := { envBase with dGet := fun _ _ => .ok dEmptySel }

/-- Environment serving `dEmptySel` in which every status write fails. -/
def envStatusWriteFails : Env :=
  { envBase with
      dGet := fun _ _ => .ok dEmptySel
      updateStatus := fun _ => .error (.store "status write failed") }

/-- Environment serving `dPlain` in which listing replica sets fails. -/
def envListFails : Env :=
  { envBase with
      dGet := fun _ _ => .ok dPlain
      rsListAll := fun _ => .error (.store "rs list failed") }

/-- A controller owner reference to the deployment `dPlain`. -/
def refToD : OwnerReference :=
  { kind := "Deployment", name := "d", uid := "du", controller := true }

/-- A controller owner reference to the replica set `rsClaimed`. -/
def refToRS : OwnerReference :=
  { kind := "ReplicaSet", name := "rs1", uid := "u1", controller := true }

/-- A replica set owned by `dPlain`. -/
def rsClaimed : ReplicaSet :=
  { ns := "n", name := "rs1", uid := "u1", labels := [("app", "x")],
    resourceVersion := "1", deletionTimestamp := none, ownerReferences := [refToD] }

/-- `rsClaimed` one resource version later, orphaned. -/
def rsCurOrphan : ReplicaSet :=
  { rsClaimed with resourceVersion := "2", ownerReferences := [] }

/-- A pod whose controller owner reference has a wrong kind (`Gopher`) but
carries the UID of `rsClaimed`. -/
def podWrongKind : Pod :=
  { ns := "n", name := "p1", uid := "pu1", labels := [("app", "x")],
    ownerReferences := [{ kind := "Gopher", name := "rs1", uid := "u1", controller := true }] }

/-- A pod properly owned by `rsClaimed`. -/
def podOwned : Pod :=
  { ns := "n", name := "p1", uid := "pu1", labels := [("app", "x")],
    ownerReferences := [refToRS] }

/-- Environment whose pod cache serves only `podWrongKind`. -/
def envWrongKindPod : Env :=
  { envBase with podList := fun _ => .ok [podWrongKind] }

/-- Environment whose pod cache serves only `podOwned`. -/
def envPods : Env :=
  { envBase with podList := fun _ => .ok [podOwned] }

/-- Environment whose deployment cache serves `dPlain`. -/
def envHasD : Env := { envBase with dGet := fun _ _ => .ok dPlain }

/-- Environment with the full pod → replica set → Recreate deployment chain
and no pods left in the cache. -/
def envChain : Env :=
  { envBase with
      dGet := fun _ _ => .ok dRecreate
      rsGet := fun _ _ => .ok rsClaimed
      listRSFromClient := fun _ => .ok [rsClaimed] }

/-- A retry queue with all attempt counters at zero. -/
def qZero : RetryQueue := ⟨fun _ => 0⟩

/-- A retry queue with all attempt counters at the retry cap. -/
def qCap : RetryQueue := ⟨fun _ => maxRetries⟩

/-! ## Helper lemmas about the pod map -/

theorem pmFind_nil (k : String) : pmFind [] k = none := rfl

theorem pmFind_cons (p : String × List Pod) (rest : PodMap) (k : String) :
    pmFind (p :: rest) k = if p.1 = k then some p.2 else pmFind rest k := by
  by_cases h : p.1 = k <;> simp [pmFind, List.find?, h]

theorem pmFind_pmSet (m : PodMap) (k k' : String) (v : List Pod) :
    pmFind (pmSet m k v) k' = if k' = k then some v else pmFind m k' := by
  induction m with
  | nil =>
      simp only [pmSet]
      rw [pmFind_cons]
      by_cases h : k' = k
      · rw [if_pos h.symm, if_pos h]
      · rw [if_neg (fun hh => h (Eq.symm hh)), if_neg h, pmFind_nil]
  | cons p rest ih =>
      simp only [pmSet]
      by_cases hp : p.1 = k
      · rw [if_pos hp, pmFind_cons, pmFind_cons]
        by_cases h : k' = k
        · rw [if_pos h.symm, if_pos h]
        · rw [if_neg (fun hh => h (Eq.symm hh)), if_neg h,
              if_neg (fun hh => h ((hp.symm.trans hh).symm))]
      · rw [if_neg hp, pmFind_cons, pmFind_cons]
        by_cases hpk : p.1 = k'
        · rw [if_pos hpk, if_neg (fun hh => hp (hpk.trans hh)), if_pos hpk]
        · rw [if_neg hpk, ih]
          by_cases h : k' = k
          · rw [if_pos h, if_pos h]
          · rw [if_neg h, if_neg h, if_neg hpk]

theorem groupStep_of_none (m : PodMap) (pod : Pod)
    (href : getControllerOf pod.ownerReferences = none) :
    groupStep m pod = m := by
  simp only [groupStep, href]

theorem groupStep_of_miss (m : PodMap) (pod : Pod) (ref : OwnerReference)
    (href : getControllerOf pod.ownerReferences = some ref)
    (hf : pmFind m ref.uid = none) :
    groupStep m pod = m := by
  simp only [groupStep, href, hf]

theorem groupStep_of_hit (m : PodMap) (pod : Pod) (ref : OwnerReference)
    (l : List Pod)
    (href : getControllerOf pod.ownerReferences = some ref)
    (hf : pmFind m ref.uid = some l) :
    groupStep m pod = pmSet m ref.uid (l ++ [pod]) := by
  simp only [groupStep, href, hf]

theorem isSome_pmFind_foldl_init (rsList : List ReplicaSet) (m : PodMap) (u : String) :
    (pmFind (rsList.foldl (fun acc rs => pmSet acc rs.uid []) m) u).isSome = true ↔
      u ∈ rsList.map (·.uid) ∨ (pmFind m u).isSome = true := by
  induction rsList generalizing m with
  | nil => simp
  | cons rs rest ih =>
      rw [List.foldl_cons, ih]
      by_cases h : u = rs.uid <;> simp [pmFind_pmSet, h]

theorem isSome_pmFind_initPodMap (rsList : List ReplicaSet) (u : String) :
    (pmFind (initPodMap rsList) u).isSome = true ↔ u ∈ rsList.map (·.uid) := by
  rw [initPodMap, isSome_pmFind_foldl_init]
  simp [pmFind_nil]

theorem isSome_pmFind_groupStep (m : PodMap) (pod : Pod) (u : String) :
    (pmFind (groupStep m pod) u).isSome = (pmFind m u).isSome := by
  cases href : getControllerOf pod.ownerReferences with
  | none => rw [groupStep_of_none m pod href]
  | some ref =>
      cases hf : pmFind m ref.uid with
      | none => rw [groupStep_of_miss m pod ref href hf]
      | some l =>
          rw [groupStep_of_hit m pod ref l href hf, pmFind_pmSet]
          by_cases h : u = ref.uid
          · rw [if_pos h, h, hf]
            rfl
          · rw [if_neg h]

theorem isSome_pmFind_groupPods (pods : List Pod) (m : PodMap) (u : String) :
    (pmFind (groupPods pods m) u).isSome = (pmFind m u).isSome := by
  induction pods generalizing m with
  | nil => rfl
  | cons pod rest ih =>
      simp only [groupPods, List.foldl_cons] at *
      rw [ih, isSome_pmFind_groupStep]

theorem pmFind_foldl_init_eq (rsList : List ReplicaSet) (m : PodMap) (u : String)
    (l : List Pod)
    (h : pmFind (rsList.foldl (fun acc rs => pmSet acc rs.uid []) m) u = some l) :
    l = [] ∨ pmFind m u = some l := by
  induction rsList generalizing m with
  | nil => exact .inr h
  | cons rs rest ih =>
      rw [List.foldl_cons] at h
      rcases ih (pmSet m rs.uid []) h with h' | h'
      · exact .inl h'
      · rw [pmFind_pmSet] at h'
        by_cases hu : u = rs.uid
        · rw [if_pos hu] at h'
          exact .inl (Option.some.inj h').symm
        · rw [if_neg hu] at h'
          exact .inr h'

theorem ownedByKey_initPodMap (rsList : List ReplicaSet) :
    OwnedByKey (initPodMap rsList) := by
  intro u l pod hfind hmem
  rcases pmFind_foldl_init_eq rsList [] u l hfind with h | h
  · subst h
    cases hmem
  · rw [pmFind_nil] at h
    cases h

theorem ownedByKey_groupStep (m : PodMap) (pod : Pod) (h : OwnedByKey m) :
    OwnedByKey (groupStep m pod) := by
  intro u l p hfind hmem
  cases href : getControllerOf pod.ownerReferences with
  | none =>
      rw [groupStep_of_none m pod href] at hfind
      exact h u l p hfind hmem
  | some ref =>
      cases hf : pmFind m ref.uid with
      | none =>
          rw [groupStep_of_miss m pod ref href hf] at hfind
          exact h u l p hfind hmem
      | some l0 =>
          rw [groupStep_of_hit m pod ref l0 href hf, pmFind_pmSet] at hfind
          by_cases hu : u = ref.uid
          · rw [if_pos hu] at hfind
            have hl : l = l0 ++ [pod] := (Option.some.inj hfind).symm
            subst hl
            rcases List.mem_append.1 hmem with hp | hp
            · exact h u l0 p (by rw [hu]; exact hf) hp
            · have hppod : p = pod := by simpa using hp
              subst hppod
              exact ⟨ref, href, hu.symm⟩
          · rw [if_neg hu] at hfind
            exact h u l p hfind hmem

theorem ownedByKey_groupPods (pods : List Pod) (m : PodMap) (h : OwnedByKey m) :
    OwnedByKey (groupPods pods m) := by
  induction pods generalizing m with
  | nil => exact h
  | cons pod rest ih =>
      simp only [groupPods, List.foldl_cons] at *
      exact ih (groupStep m pod) (ownedByKey_groupStep m pod h)

theorem getPodMapForDeployment_ok (env : Env) (d : Deployment)
    (rsList : List ReplicaSet) (m : PodMap)
    (h : getPodMapForDeployment env d rsList = .ok m) :
    ∃ pods, env.podList d.ns = .ok pods ∧ m = groupPods pods (initPodMap rsList) := by
  unfold getPodMapForDeployment at h
  cases hsel : labelSelectorAsSelector d.spec.selector with
  | error e => rw [hsel] at h; cases h
  | ok _ =>
      rw [hsel] at h
      cases hl : env.podList d.ns with
      | error e => rw [hl] at h; cases h
      | ok pods =>
          rw [hl] at h
          exact ⟨pods, rfl, (Except.ok.inj h).symm⟩

theorem syncDeployment_eq_body (env : Env) (key ns name : String) (d : Deployment)
    (hkey : splitMetaNamespaceKey key = .ok (ns, name))
    (hget : env.dGet ns name = .ok d) :
    syncDeployment env key = syncWithDeployment env d := by
  simp [syncDeployment, hkey, hget]

theorem resolveControllerRef_iff (env : Env) (ns : String) (ref : OwnerReference)
    (d : Deployment) :
    resolveControllerRef env ns ref = some d ↔
      ref.kind = deploymentKind ∧ env.dGet ns ref.name = .ok d ∧ d.uid = ref.uid := by
  constructor
  · intro h
    unfold resolveControllerRef at h
    by_cases hk : ref.kind = deploymentKind
    · rw [if_neg (fun hh => hh hk)] at h
      cases hget : env.dGet ns ref.name with
      | error e2 => rw [hget] at h; cases h
      | ok d0 =>
          rw [hget] at h
          change (if d0.uid ≠ ref.uid then none else some d0) = some d at h
          by_cases hu : d0.uid = ref.uid
          · rw [if_neg (fun hh => hh hu)] at h
            cases Option.some.inj h
            exact ⟨hk, rfl, hu⟩
          · rw [if_pos hu] at h; cases h
    · rw [if_pos hk] at h; cases h
  · rintro ⟨hk, hget, hu⟩
    simp only [resolveControllerRef, hget]
    rw [if_neg (fun hh => hh hk)]
    rw [if_neg (fun hh => hh hu)]

theorem getDeploymentForPod_iff (env : Env) (pod : Pod) (dep : Deployment) :
    getDeploymentForPod env pod = some dep ↔
      ∃ ref rs, getControllerOf pod.ownerReferences = some ref ∧
        ref.kind = replicaSetKind ∧ env.rsGet pod.ns ref.name = .ok rs ∧
        rs.uid = ref.uid ∧
        ∃ ref2, getControllerOf rs.ownerReferences = some ref2 ∧
          resolveControllerRef env rs.ns ref2 = some dep := by
  constructor
  · intro h
    unfold getDeploymentForPod at h
    split at h
    · cases h
    · rename_i ref href
      split at h
      · cases h
      · rename_i hk
        split at h
        · cases h
        · rename_i rs hok
          split at h
          · cases h
          · rename_i hu
            split at h
            · cases h
            · rename_i ref2 href2
              exact ⟨ref, rs, href, not_not.mp hk, hok, not_not.mp hu, ref2, href2, h⟩
  · rintro ⟨ref, rs, href, hk, hok, hu, ref2, href2, hres⟩
    simp [getDeploymentForPod, href, hk, hok, hu, href2, hres]

/-! ## Claim theorems -/

/-- Claim C2: for a failing sync outcome (error present and not
namespace-terminating), `handleErr` requeues the key with rate-limited
backoff while the per-key attempt counter is below `maxRetries` (= 15),
bumping the counter; at or beyond 15 it surfaces the error to the
process-wide error handler and forgets the key, resetting the counter so
that the key is not retried again without a new external notification. -/
theorem failingSyncRetryPolicy (q : RetryQueue) (key : String) (e : Err)
    (hne : e.hasNamespaceTerminatingCause = false) :
    (q.requeues key < maxRetries →
      (handleErr q (some e) key).op = .addRateLimited ∧
      (handleErr q (some e) key).surfaced = false ∧
      (handleErr q (some e) key).queue.requeues key = q.requeues key + 1) ∧
    (maxRetries ≤ q.requeues key →
      (handleErr q (some e) key).op = .forget ∧
      (handleErr q (some e) key).surfaced = true ∧
      (handleErr q (some e) key).queue.requeues key = 0) := by
  constructor
  · intro hlt
    simp [handleErr, hne, hlt, RetryQueue.addRateLimited]
  · intro hge
    simp [handleErr, hne, Nat.not_lt.mpr hge, RetryQueue.forget]

/-- Witness for C2: a failing store error at counter 0 is requeued
rate-limited, and at the cap it is surfaced and forgotten. -/
theorem failingSyncRetryPolicy_witness :
    (handleErr qZero (some (Err.store "boom")) "n/d").op = .addRateLimited ∧
    (handleErr qCap (some (Err.store "boom")) "n/d").op = .forget ∧
    (handleErr qCap (some (Err.store "boom")) "n/d").surfaced = true := by
  refine ⟨?_, ?_, ?_⟩
  · exact ((failingSyncRetryPolicy qZero "n/d" (Err.store "boom") rfl).1 (by decide)).1
  · exact ((failingSyncRetryPolicy qCap "n/d" (Err.store "boom") rfl).2 (by decide)).1
  · exact ((failingSyncRetryPolicy qCap "n/d" (Err.store "boom") rfl).2 (by decide)).2.1

/-- Claim C5: a NotFound cache miss on the deployment makes the sync return
success, and for a nil outcome or a namespace-terminating error `handleErr`
forgets the key: attempt counter reset to zero, no requeue, nothing
surfaced. -/
theorem notFoundTerminalSuccessForgets (env : Env) (key ns name : String)
    (e : Err) (q : RetryQueue) (k : String) :
    (splitMetaNamespaceKey key = .ok (ns, name) →
      env.dGet ns name = .error e → e.isNotFound = true →
      (syncDeployment env key).1 = .ok ()) ∧
    ((handleErr q none k).op = .forget ∧ (handleErr q none k).surfaced = false ∧
      (handleErr q none k).queue.requeues k = 0) ∧
    (∀ e2 : Err, e2.hasNamespaceTerminatingCause = true →
      (handleErr q (some e2) k).op = .forget ∧
      (handleErr q (some e2) k).surfaced = false ∧
      (handleErr q (some e2) k).queue.requeues k = 0) := by
  refine ⟨?_, ?_, ?_⟩
  · intro hkey hget hnf
    simp [syncDeployment, hkey, hget, hnf]
  · simp [handleErr, RetryQueue.forget]
  · intro e2 h2
    simp [handleErr, h2, RetryQueue.forget]

/-- Witness for C5: the baseline environment's cache has no deployment, so
the sync of `n/d` succeeds, and a success forgets the key. -/
theorem notFoundTerminalSuccessForgets_witness :
    (syncDeployment envBase "n/d").1 = .ok () ∧
    (handleErr qZero none "n/d").op = .forget ∧
    (handleErr qZero none "n/d").queue.requeues "n/d" = 0 := by
  have h := notFoundTerminalSuccessForgets envBase "n/d" "n" "d"
      (Err.notFound "deployment not found") qZero "n/d"
  exact ⟨h.1 rfl rfl rfl, h.2.1.1, h.2.1.2.2⟩

/-- Claim C6: an owner reference resolves to a deployment exactly when its
kind is the Deployment kind, the cache lookup by (namespace, name)
succeeds, and the found object's UID equals the reference's UID; and when
resolution fails, the replica-set deletion handler enqueues nothing through
that reference. -/
theorem resolveControllerRefVerified (env : Env) (ns : String) (ref : OwnerReference) :
    (∀ d, resolveControllerRef env ns ref = some d ↔
      ref.kind = deploymentKind ∧ env.dGet ns ref.name = .ok d ∧ d.uid = ref.uid) ∧
    (∀ rs : ReplicaSet, getControllerOf rs.ownerReferences = some ref →
      resolveControllerRef env rs.ns ref = none →
      enqueues (deleteReplicaSet env rs) = []) := by
  constructor
  · intro d
    constructor
    · intro h
      unfold resolveControllerRef at h
      by_cases hk : ref.kind = deploymentKind
      · rw [if_neg (fun hh => hh hk)] at h
        cases hget : env.dGet ns ref.name with
        | error e2 => rw [hget] at h; cases h
        | ok d0 =>
            rw [hget] at h
            change (if d0.uid ≠ ref.uid then none else some d0) = some d at h
            by_cases hu : d0.uid = ref.uid
            · rw [if_neg (fun hh => hh hu)] at h
              cases Option.some.inj h
              exact ⟨hk, rfl, hu⟩
            · rw [if_pos hu] at h; cases h
      · rw [if_pos hk] at h; cases h
    · rintro ⟨hk, hget, hu⟩
      simp only [resolveControllerRef, hget]
      rw [if_neg (fun hh => hh hk)]
      rw [if_neg (fun hh => hh hu)]
  · intro rs hctrl hres
    simp [deleteReplicaSet, hctrl, hres, enqueues]

/-- Witness for C6: the reference `refToD` resolves to `dPlain` in the
environment serving it, and a mismatched-UID reference resolves to nothing
so the deletion handler enqueues nothing. -/
theorem resolveControllerRefVerified_witness :
    resolveControllerRef envHasD "n" refToD = some dPlain := by
  exact ((resolveControllerRefVerified envHasD "n" refToD).1 dPlain).2 ⟨rfl, rfl, rfl⟩

/-- Claim C8: a replica-set update whose resource version is unchanged does
nothing at all — no owner resolution, no orphan matching, no enqueue. -/
theorem resyncNoopOnUnchangedResourceVersion (env : Env) (old cur : ReplicaSet)
    (h : cur.resourceVersion = old.resourceVersion) :
    updateReplicaSet env old cur = [] := by
  unfold updateReplicaSet
  rw [if_pos h]

/-- Witness for C8: updating `rsClaimed` to itself produces an empty action
trace. -/
theorem resyncNoopOnUnchangedResourceVersion_witness :
    updateReplicaSet envHasD rsClaimed rsClaimed = [] :=
  resyncNoopOnUnchangedResourceVersion envHasD rsClaimed rsClaimed rfl

/-- Claim C10: the key set of the grouping map is exactly the UIDs of the
claimed replica sets passed in — every claimed replica set appears as a key
even with an empty pod list, and no key outside the claimed set appears. -/
theorem podMapKeySetIsClaimedUids (env : Env) (d : Deployment)
    (rsList : List ReplicaSet) (m : PodMap)
    (h : getPodMapForDeployment env d rsList = .ok m) :
    ∀ uid, (pmFind m uid).isSome = true ↔ uid ∈ rsList.map (·.uid) := by
  obtain ⟨pods, -, hm⟩ := getPodMapForDeployment_ok env d rsList m h
  subst hm
  intro uid
  rw [isSome_pmFind_groupPods]
  exact isSome_pmFind_initPodMap rsList uid

/-- Witness for C10: with claimed list `[rsClaimed]` the computed map has
key u1 and no key zz. -/
theorem podMapKeySetIsClaimedUids_witness :
    (pmFind [("u1", [podOwned])] "u1").isSome = true ∧
    ¬ (pmFind [("u1", [podOwned])] "zz").isSome = true := by
  have h := podMapKeySetIsClaimedUids envPods dPlain [rsClaimed] [("u1", [podOwned])] (by rfl)
  constructor
  · exact (h "u1").2 (by simp [rsClaimed])
  · intro hcon
    have h2 := (h "zz").1 hcon
    simp [rsClaimed] at h2

/-- Claim C3 (amended): a pod is placed in a claimed replica set's list
only after unique-id verification — its controller owner reference must
exist and its UID must equal that replica set's UID; the reference's kind
is not examined by the grouping helper. -/
theorem podGroupedOnlyByUidMatch (env : Env) (d : Deployment)
    (rsList : List ReplicaSet) (m : PodMap)
    (h : getPodMapForDeployment env d rsList = .ok m) :
    ∀ uid l pod, pmFind m uid = some l → pod ∈ l →
      ∃ ref, getControllerOf pod.ownerReferences = some ref ∧ ref.uid = uid := by
  obtain ⟨pods, -, hm⟩ := getPodMapForDeployment_ok env d rsList m h
  subst hm
  exact ownedByKey_groupPods pods (initPodMap rsList) (ownedByKey_initPodMap rsList)

/-- Witness for C3: the grouped pod `podOwned` indeed carries a controller
reference with the key's UID. -/
theorem podGroupedOnlyByUidMatch_witness :
    ∃ ref, getControllerOf podOwned.ownerReferences = some ref ∧ ref.uid = "u1" :=
  podGroupedOnlyByUidMatch envPods dPlain [rsClaimed] [("u1", [podOwned])] (by rfl)
    "u1" [podOwned] podOwned rfl (by simp)

/-- Counterexample to C3 as stated: the pod `podWrongKind`, whose
controller owner reference has kind `Gopher` (not the ReplicaSet kind) but
UID u1, is still placed in claimed replica set u1's list — the grouping
helper never checks the reference's kind. -/
theorem podGroupedDespiteWrongKind :
    getPodMapForDeployment envWrongKindPod dPlain [rsClaimed] =
      .ok [("u1", [podWrongKind])] ∧
    getControllerOf podWrongKind.ownerReferences =
      some { kind := "Gopher", name := "rs1", uid := "u1", controller := true } ∧
    "Gopher" ≠ replicaSetKind :=
  ⟨by rfl, rfl, by decide⟩

/-- Claim C1: a sync of a deployment whose spec selector equals the empty
(match-everything) selector emits the SelectingAll warning event, writes
`status.observedGeneration := generation` exactly when the observed
generation is stale, returns success, and performs no other action: no
replica set is listed, claimed, or mutated, no pods are listed, and no
sub-sync runs. -/
theorem emptySelectorSyncStatusOnly (env : Env) (key ns name : String)
    (d : Deployment)
    (hkey : splitMetaNamespaceKey key = .ok (ns, name))
    (hget : env.dGet ns name = .ok d)
    (hsel : d.spec.selector = some emptyLabelSelector) :
    (syncDeployment env key).1 = .ok () ∧
    (syncDeployment env key).2 =
      (if d.status.observedGeneration < d.generation then
        [Action.warnEvent "SelectingAll",
         Action.updateStatus d.ns d.name d.generation]
      else
        [Action.warnEvent "SelectingAll"]) ∧
    (∀ n m, Action.listClaimReplicaSets n m ∉ (syncDeployment env key).2) ∧
    (∀ n, Action.listPods n ∉ (syncDeployment env key).2) ∧
    (∀ t, Action.subSync t ∉ (syncDeployment env key).2) := by
  rw [syncDeployment_eq_body env key ns name d hkey hget]
  unfold syncWithDeployment
  rw [if_pos hsel]
  by_cases hst : d.status.observedGeneration < d.generation
  · rw [if_pos hst]
    simp [hst]
  · rw [if_neg hst]
    simp [hst]

/-- Witness for C1: syncing `n/d` against `dEmptySel` (generation 3,
observed generation 2) succeeds with exactly a warning and a status write
to observed generation 3. -/
theorem emptySelectorSyncStatusOnly_witness :
    (syncDeployment envEmptySel "n/d").1 = .ok () ∧
    (syncDeployment envEmptySel "n/d").2 =
      [Action.warnEvent "SelectingAll", Action.updateStatus "n" "d" 3] := by
  have h := emptySelectorSyncStatusOnly envEmptySel "n/d" "n" "d" dEmptySel
      (by rfl) rfl rfl
  refine ⟨h.1, ?_⟩
  rw [h.2.1,
    if_pos (by decide : dEmptySel.status.observedGeneration < dEmptySel.generation)]
  rfl

/-- Claim C9: on a replica-set update where the controller owner reference
differs between old and new versions and the old version's controller
reference resolves, the old owner deployment is enqueued. -/
theorem oldOwnerEnqueuedOnRefChange (env : Env) (old cur : ReplicaSet)
    (r : OwnerReference) (d : Deployment)
    (hrv : ¬ cur.resourceVersion = old.resourceVersion)
    (hold : getControllerOf old.ownerReferences = some r)
    (hch : ¬ getControllerOf cur.ownerReferences = some r)
    (hres : resolveControllerRef env old.ns r = some d) :
    CAction.enqueue d.ns d.name ∈ updateReplicaSet env old cur := by
  cases hcur : getControllerOf cur.ownerReferences with
  | none =>
      simp [updateReplicaSet, hrv, hcur, hold, hres]
  | some r2 =>
      have hr2 : ¬ ((some r2 : Option OwnerReference) = some r) := by
        rw [← hcur]; exact hch
      simp [updateReplicaSet, hrv, hcur, hold, hres, hr2]

/-- Witness for C9: `rsClaimed` (owned by `dPlain`) updated to the orphaned
`rsCurOrphan` enqueues the old owner. -/
theorem oldOwnerEnqueuedOnRefChange_witness :
    CAction.enqueue "n" "d" ∈ updateReplicaSet envHasD rsClaimed rsCurOrphan := by
  have h := oldOwnerEnqueuedOnRefChange envHasD rsClaimed rsCurOrphan refToD dPlain
      (by decide) (by rfl) (by decide) (by rfl)
  exact h

/-- Claim C7: on a pod deletion, the owning deployment is enqueued only
when the pod → replica set → deployment walk resolves (controller reference
present, kind and UID verified at each hop), the deployment's strategy is
Recreate, the client-side replica set list and the recomputed pod map both
succeed, and the map holds zero pods in total; every enqueued action is of
exactly this shape, so in all other cases the deletion enqueues nothing. -/
theorem podDeleteEnqueuePolicy (env : Env) (pod : Pod) :
    (∀ dep, getDeploymentForPod env pod = some dep ↔
      ∃ ref rs, getControllerOf pod.ownerReferences = some ref ∧
        ref.kind = replicaSetKind ∧ env.rsGet pod.ns ref.name = .ok rs ∧
        rs.uid = ref.uid ∧
        ∃ ref2, getControllerOf rs.ownerReferences = some ref2 ∧
          ref2.kind = deploymentKind ∧ env.dGet rs.ns ref2.name = .ok dep ∧
          dep.uid = ref2.uid) ∧
    (∀ dep rsList podMap, getDeploymentForPod env pod = some dep →
      dep.spec.strategyType = "Recreate" →
      env.listRSFromClient dep = .ok rsList →
      getPodMapForDeployment env dep rsList = .ok podMap →
      numPods podMap = 0 →
      deletePod env pod = [CAction.enqueue dep.ns dep.name]) ∧
    (∀ a, a ∈ deletePod env pod →
      ∃ dep rsList podMap,
        a = CAction.enqueue dep.ns dep.name ∧
        getDeploymentForPod env pod = some dep ∧
        dep.spec.strategyType = "Recreate" ∧
        env.listRSFromClient dep = .ok rsList ∧
        getPodMapForDeployment env dep rsList = .ok podMap ∧
        numPods podMap = 0) := by
  refine ⟨?_, ?_, ?_⟩
  · intro dep
    rw [getDeploymentForPod_iff]
    constructor
    · rintro ⟨ref, rs, h1, h2, h3, h4, ref2, h5, h6⟩
      exact ⟨ref, rs, h1, h2, h3, h4, ref2, h5, (resolveControllerRef_iff env rs.ns ref2 dep).1 h6⟩
    · rintro ⟨ref, rs, h1, h2, h3, h4, ref2, h5, h6⟩
      exact ⟨ref, rs, h1, h2, h3, h4, ref2, h5, (resolveControllerRef_iff env rs.ns ref2 dep).2 h6⟩
  · intro dep rsList podMap hd hstrat hlist hmap hnum
    simp [deletePod, hd, hstrat, hlist, hmap, hnum]
  · intro a ha
    unfold deletePod at ha
    split at ha
    · cases ha
    · rename_i dep hd
      split at ha
      · rename_i hstrat
        split at ha
        · cases ha
        · rename_i rsList hlist
          split at ha
          · cases ha
          · rename_i podMap hmap
            split at ha
            · rename_i hnum
              have haeq : a = CAction.enqueue dep.ns dep.name := by simpa using ha
              exact ⟨dep, rsList, podMap, haeq, hd, hstrat, hlist, hmap, hnum⟩
            · cases ha
      · cases ha

/-- Witness for C7: deleting `podOwned` with the full resolution chain to
the Recreate deployment and an empty pod cache enqueues exactly that
deployment. -/
theorem podDeleteEnqueuePolicy_witness :
    deletePod envChain podOwned = [CAction.enqueue "n" "d"] := by
  exact (podDeleteEnqueuePolicy envChain podOwned).2.1 dRecreate [rsClaimed]
      [("u1", [])] (by rfl) rfl (by rfl) (by rfl) rfl

/-- Claim C4 (amended): every error from a store read or write or from a
dispatched sub-sync — other than NotFound on the workload itself — is
returned unmodified as the sync's result, with one exception: in the
invalid-selector branch the observed-generation status write's error is
discarded and the sync still returns success. -/
theorem syncErrorPropagation (env : Env) (key : String) :
    (∀ e, splitMetaNamespaceKey key = .error e →
      (syncDeployment env key).1 = .error e) ∧
    (∀ ns name e, splitMetaNamespaceKey key = .ok (ns, name) →
      env.dGet ns name = .error e → e.isNotFound = false →
      (syncDeployment env key).1 = .error e) ∧
    (∀ ns name d, splitMetaNamespaceKey key = .ok (ns, name) →
      env.dGet ns name = .ok d →
      (d.spec.selector = some emptyLabelSelector →
        (syncDeployment env key).1 = .ok ()) ∧
      (¬ d.spec.selector = some emptyLabelSelector →
        PropagatesErrors env key d)) := by
  refine ⟨?_, ?_, ?_⟩
  · intro e hkey
    simp [syncDeployment, hkey]
  · intro ns name e hkey hget hnf
    simp [syncDeployment, hkey, hget, hnf]
  · intro ns name d hkey hget
    have hb := syncDeployment_eq_body env key ns name d hkey hget
    constructor
    · intro hsel
      rw [hb]
      unfold syncWithDeployment
      rw [if_pos hsel]
      by_cases hst : d.status.observedGeneration < d.generation
      · rw [if_pos hst]
      · rw [if_neg hst]
    · intro hsel
      unfold PropagatesErrors
      refine ⟨?_, ?_⟩
      · intro e hclaim
        rw [hb]
        simp [syncWithDeployment, hsel, hclaim]
      · intro rsList hclaim
        refine ⟨?_, ?_⟩
        · intro e hmap
          rw [hb]
          simp [syncWithDeployment, hsel, hclaim, hmap]
        · intro podMap hmap
          refine ⟨?_, ?_⟩
          · intro hdel e hsso
            rw [hb]
            simp [syncWithDeployment, toExcept, hsel, hclaim, hmap, hdel, hsso]
          · intro hdel
            refine ⟨?_, ?_⟩
            · intro e hcpc
              rw [hb]
              simp [syncWithDeployment, hsel, hclaim, hmap, hdel, hcpc]
            · intro hcpc
              refine ⟨?_, ?_⟩
              · intro hpaused e hs
                rw [hb]
                simp [syncWithDeployment, toExcept, hsel, hclaim, hmap, hdel, hcpc,
                      hpaused, hs]
              · intro hpaused
                refine ⟨?_, ?_⟩
                · intro hrb e hr
                  rw [hb]
                  simp [syncWithDeployment, toExcept, hsel, hclaim, hmap, hdel, hcpc,
                        hpaused, hrb, hr]
                · intro hrb
                  refine ⟨?_, ?_, ?_⟩
                  · intro e hise
                    rw [hb]
                    simp [syncWithDeployment, hsel, hclaim, hmap, hdel, hcpc,
                          hpaused, hrb, hise]
                  · intro hise e hs
                    rw [hb]
                    simp [syncWithDeployment, toExcept, hsel, hclaim, hmap, hdel, hcpc,
                          hpaused, hrb, hise, hs]
                  · intro hise
                    constructor
                    · intro hstrat e hrr
                      rw [hb]
                      simp [syncWithDeployment, toExcept, hsel, hclaim, hmap, hdel, hcpc,
                            hpaused, hrb, hise, hstrat, hrr]
                    · intro hstrat e hrr
                      rw [hb]
                      simp [syncWithDeployment, toExcept, hsel, hclaim, hmap, hdel, hcpc,
                            hpaused, hrb, hise, hstrat, hrr]

/-- Witness for C4: a failing replica-set list error surfaces unmodified
as the sync result. -/
theorem syncErrorPropagation_witness :
    (syncDeployment envListFails "n/d").1 = .error (.store "rs list failed") := by
  have h := ((syncErrorPropagation envListFails "n/d").2.2 "n" "d" dPlain
      (by rfl) rfl).2 (by decide)
  exact h.1 (.store "rs list failed") (by rfl)

/-- Counterexample to C4 as stated: with the empty-selector deployment
`dEmptySel` (stale observed generation) and an environment whose status
write fails, the sync attempts the write and still returns success — that
store write error is silently discarded inside the sync. -/
theorem statusWriteErrorDiscarded :
    envStatusWriteFails.updateStatus
        { dEmptySel with status := { observedGeneration := 3 } } =
      .error (.store "status write failed") ∧
    (syncDeployment envStatusWriteFails "n/d").1 = .ok () ∧
    Action.updateStatus "n" "d" 3 ∈ (syncDeployment envStatusWriteFails "n/d").2 := by
  refine ⟨rfl, by rfl, ?_⟩
  have h2 : (syncDeployment envStatusWriteFails "n/d").2 =
      [Action.warnEvent "SelectingAll", Action.updateStatus "n" "d" 3] := by rfl
  rw [h2]
  simp

end DeploymentController
